import Mathlib

/-!
# Batch downloader: a shallow embedding of `downloader_v3.go` and `downloader.go`

The two programs read a manifest of `NUM:KEY` lines, start one external download per entry
and (in `downloader_v3.go`) watch the size of the file being written.

Modelling conventions.

* A Go `string` is a Lean `String` (the text is taken to be valid UTF-8).
* Every line a goroutine of a job prints or logs is a value of `Line`; the text of an
  `error` value printed with `%v` is not recorded.  The lines `main` and `processBatch`
  print about a whole batch are left out.
* The results of the external steps (browser navigation, `cmd.Start`, `cmd.Wait`, `os.Stat`)
  are inputs of the model.  `os.Stat` gives `none` when it fails and `some size` otherwise.
* Every goroutine has its own output sequence; the interleaving of the sequences of
  different goroutines on the terminal is not modelled, and every goroutine that is started
  is taken to run until it returns.  (The code waits for the download goroutines only:
  the goroutines of the first loop and the monitors are not joined.)
* The manifest is given by the lines of the file, read to its end without an I/O error.
* `select` in `monitorFileSize` receives a sequence of events chosen by the environment:
  a tick of the ticker or the closing of `done`, each together with the result `os.Stat`
  gives when that branch runs.
-/

namespace Ripper

/-! ## Constants and data (downloader_v3.go, lines 18-29) -/

/-- The constant `batchSize`. -/
def batchSize : Nat := 5

/-- The struct `Episode`. -/
structure Episode where
  Num : String
  Key : String
  URL : String
deriving DecidableEq, Repr

/-- The format string of line 85 up to its `%s`. -/
def urlPrefix : String :=
  "https://wlext.is/series/sin-senos-no-hay-paraiso-2008/?server=shorticu&episode="

/-! ## Strings: `strings.TrimSpace` and `strings.Split` -/

/-- The loop `for i := 0; i < totalEpisodes; i += batchSize` started at `i`: the calls of
`processBatch` it makes, each with the value of `i` and the slice `episodes[i:end]`. -/
def mainLoop (episodes : List Episode) (i : Nat) : List (Nat × List Episode) :=
  if i < episodes.length then
    let stop := if i + batchSize > episodes.length then episodes.length else i + batchSize
    (i, (episodes.drop i).take (stop - i)) :: mainLoop episodes (i + batchSize)
  else []
termination_by episodes.length - i
decreasing_by
  simp only [batchSize]
  omega

/-- The batches handed to `processBatch`, in the order of the calls. -/
def batches (episodes : List Episode) : List (List Episode) :=
  (mainLoop episodes 0).map Prod.snd

/-! ## The size monitor (downloader_v3.go, lines 224-261) -/

/-- The conversion `float64(n)` of a natural number: exact below `2 ^ 53`, otherwise
rounded to 53 significant bits, ties to even. -/
def roundFloat64 (n : Nat) : Nat :=
  if n < 2 ^ 53 then n
  else
    let e := Nat.log2 n - 52
    let q := n / 2 ^ e
    let r := n % 2 ^ e
    if 2 * r < 2 ^ e then q * 2 ^ e
    else if 2 ^ e < 2 * r then (q + 1) * 2 ^ e
    else if q % 2 = 0 then q * 2 ^ e
    else (q + 1) * 2 ^ e

/-- The conversion `float64(x)` of an `int64`, as the rational number the result stands
for. -/
def float64 (x : Int) : ℚ :=
  if x < 0 then -((roundFloat64 x.natAbs : Nat) : ℚ) else ((roundFloat64 x.toNat : Nat) : ℚ)

/-- The expression `float64(size) / 1024 / 1024`.  A division of a float64 by 1024 only
lowers the exponent, so both divisions are exact. -/
def sizeMB (size : Int) : ℚ :=
  float64 size / 1024 / 1024

/-- The lines the goroutines of a job print or log, each with the episode number it
names. -/
inductive Line where
  /-- Line 132: `[%s] Navigating to %s` -/
  | navigating (num url : String)
  /-- Line 137: `[%s] Failed to navigate: %v` -/
  | failedToNavigate (num : String)
  /-- Line 139: `[%s] Page loaded.` -/
  | pageLoaded (num : String)
  /-- Line 182: `[%s] Opening page...` -/
  | openingPage (num : String)
  /-- Line 184: `[%s] Browser error: %v` -/
  | browserError (num : String)
  /-- Line 193: `[%s] Starting download to %s`; the path is `outputDir/num.mp4` -/
  | startingDownload (num : String)
  /-- Line 202: `[%s] Failed to start download: %v` -/
  | failedToStart (num : String)
  /-- Line 211: `[%s] Download command failed: %v` -/
  | commandFailed (num : String)
  /-- Line 213: `[%s] Download command finished.` -/
  | commandFinished (num : String)
  /-- Line 237: `[%s] Final size: %.2f MB` -/
  | finalSize (num : String) (mb : ℚ)
  /-- Line 239: `[%s] WARNING: File is suspiciously small (<10MB)!` -/
  | warningSmall (num : String)
  /-- Line 241: `[%s] SUCCESS: Large file confirmed.` -/
  | successLarge (num : String)
  /-- Line 244: `[%s] Error checking final file size: %v` -/
  | errorFinalSize (num : String)
  /-- Line 255: `[%s] Downloading... Current size: %.2f MB` -/
  | downloading (num : String) (mb : ℚ)
  /-- Line 74 of downloader.go: `Starting processing for NUM: %s, KEY: %s` -/
  | startingProcessing (num key : String)
  /-- Line 76 of downloader.go: `Error processing NUM: %s: %v` -/
  | errorProcessing (num : String)
  /-- Line 78 of downloader.go: `Completed NUM: %s` -/
  | completed (num : String)
deriving DecidableEq

/-- What one pass of the `select` of `monitorFileSize` receives, with the result of the
`os.Stat` call of that branch. -/
inductive Event where
  /-- A value from `ticker.C` -/
  | tick (stat : Option Int)
  /-- The channel `done` is closed -/
  | done (stat : Option Int)
deriving DecidableEq

/-- The branch `case <-done` (lines 232-246) up to its `return`. -/
def finalCheck (num : String) : Option Int → List Line
  | some size =>
    let mb := sizeMB size
    Line.finalSize num mb ::
      (if mb < 10 then [Line.warningSmall num] else [Line.successLarge num])
  | none => [Line.errorFinalSize num]

/-- The loop `for { select { ... } }` of `monitorFileSize` with the variable `lastSize`:
the lines printed, and whether the function has returned (`false`: the events ran out and
the loop is still waiting in `select`). -/
def monitorLoop (num : String) : Int → List Event → List Line × Bool
  | _, [] => ([], false)
  | _, Event.done stat :: _ => (finalCheck num stat, true)
  | lastSize, Event.tick (some currentSize) :: rest =>
    if currentSize ≠ lastSize then
      (Line.downloading num (sizeMB currentSize) :: (monitorLoop num currentSize rest).1,
        (monitorLoop num currentSize rest).2)
    else monitorLoop num lastSize rest
  | lastSize, Event.tick none :: rest => monitorLoop num lastSize rest

/-- The function `monitorFileSize`: `lastSize` starts at zero. -/
def monitorFileSize (num : String) (events : List Event) : List Line × Bool :=
  monitorLoop num 0 events

/-! ## One batch (downloader_v3.go, lines 92-222) -/

/-- The results of the external steps of one job. -/
structure Ext where
  /-- Whether `chromedp.Run` of the first loop (line 133) returned no error -/
  tabNavOk : Bool
  /-- Whether `chromedp.Run` of the second loop (line 183) returned no error -/
  navOk : Bool
  /-- Whether `cmd.Start` (line 201) returned no error -/
  startOk : Bool
  /-- Whether `cmd.Wait` (line 210) returned no error: the process exited with status zero -/
  waitOk : Bool
  /-- The results of `os.Stat` at the ticks the monitor handles before it sees `done` -/
  ticks : List (Option Int)
  /-- The result of `os.Stat` in the final check -/
  final : Option Int
deriving DecidableEq

/-- The goroutine of the first loop (lines 125-150). -/
def tabGoroutine (e : Episode) (x : Ext) : List Line :=
  [Line.navigating e.Num e.URL,
    if x.tabNavOk then Line.pageLoaded e.Num else Line.failedToNavigate e.Num]

/-- The goroutine of the second loop (lines 174-217): its own lines, and the result of the
`monitorFileSize` goroutine when it starts one.  `done` is closed after `cmd.Wait` returns,
so the monitor sees the ticks and then `done`. -/
def downloadGoroutine (e : Episode) (x : Ext) : List Line × Option (List Line × Bool) :=
  if !x.navOk then
    ([Line.openingPage e.Num, Line.browserError e.Num], none)
  else if !x.startOk then
    ([Line.openingPage e.Num, Line.startingDownload e.Num, Line.failedToStart e.Num], none)
  else
    ([Line.openingPage e.Num, Line.startingDownload e.Num,
        if x.waitOk then Line.commandFinished e.Num else Line.commandFailed e.Num],
      some (monitorFileSize e.Num (x.ticks.map Event.tick ++ [Event.done x.final])))

/-- The output of the goroutines of one job. -/
structure JobReport where
  tab : List Line
  worker : List Line
  monitor : Option (List Line × Bool)
deriving DecidableEq

/-- The lines of the monitor of a job, none when no monitor was started. -/
def JobReport.monitorLines (r : JobReport) : List Line :=
  match r.monitor with
  | some m => m.1
  | none => []

/-- All lines reported for a job. -/
def JobReport.lines (r : JobReport) : List Line :=
  r.tab ++ r.worker ++ r.monitorLines

/-- The goroutines started for one episode of a batch. -/
def runJob (e : Episode) (x : Ext) : JobReport :=
  JobReport.mk (tabGoroutine e x) (downloadGoroutine e x).1 (downloadGoroutine e x).2

/-- The function `processBatch`: both loops range over the batch and start one goroutine
for each episode; `ext k` holds the external results of the episode at index `k`. -/
def processBatch (batch : List Episode) (ext : Nat → Ext) : List JobReport :=
  batch.mapIdx (fun k e => runJob e (ext k))

/-- The run of `main` after the manifest is read: `processBatch` on each batch in turn;
`ext j` holds the external results of the episode at index `j` of `episodes`. -/
def runBatches (episodes : List Episode) (ext : Nat → Ext) : List (List JobReport) :=
  (mainLoop episodes 0).map (fun c => processBatch c.2 (fun k => ext (c.1 + k)))

/-! ## The goroutine of the semaphore variant (downloader.go, lines 57-80) -/

/-- The goroutine of `downloader.go`: `runOk` tells whether `cmd.Run` returned no error. -/
def semGoroutine (n k : String) (runOk : Bool) : List Line :=
  [Line.startingProcessing n k, if runOk then Line.completed n else Line.errorProcessing n]

/-! ## Specification-side definitions -/

/-- The value of the variable `lastSize` of `monitorFileSize` after the ticks with the given
`os.Stat` results, when it was `lastSize` before them. -/
def lastSizeAfter : Int → List (Option Int) → Int
  | lastSize, [] => lastSize
  | lastSize, some currentSize :: rest =>
    if currentSize ≠ lastSize then lastSizeAfter currentSize rest
    else lastSizeAfter lastSize rest
  | lastSize, none :: rest => lastSizeAfter lastSize rest

/-- The sizes of the samples whose `os.Stat` succeeded, in order. -/
def sizesSeen (samples : List (Option Int)) : List Int :=
  samples.filterMap id

/-- The changes of a sequence: its elements, from the second on, that differ from the
element before them. -/
def changes : List Int → List Int
  | [] => []
  | [_] => []
  | a :: b :: rest => if b ≠ a then b :: changes (b :: rest) else changes (b :: rest)

/-- The progress observations the specification asks for: one for each change of the
sequence of successful sizes with a zero put in front. -/
def observations (num : String) (samples : List (Option Int)) : List Line :=
  (changes (0 :: sizesSeen samples)).map (fun s => Line.downloading num (sizeMB s))

/-- The last observed size in the words of the specification: the size of the latest
observation emitted, zero when there is none yet. -/
def lastObserved (samples : List (Option Int)) : Int :=
  ((changes (0 :: sizesSeen samples)).getLast?).getD 0

/-- The lines of `monitorFileSize` for ticks only. -/
def progressLines (num : String) (samples : List (Option Int)) : List Line :=
  (monitorFileSize num (samples.map Event.tick)).1

/-- The episode number a line starts with. -/
def Line.num : Line → String
  | Line.navigating num _ => num
  | Line.failedToNavigate num => num
  | Line.pageLoaded num => num
  | Line.openingPage num => num
  | Line.browserError num => num
  | Line.startingDownload num => num
  | Line.failedToStart num => num
  | Line.commandFailed num => num
  | Line.commandFinished num => num
  | Line.finalSize num _ => num
  | Line.warningSmall num => num
  | Line.successLarge num => num
  | Line.errorFinalSize num => num
  | Line.downloading num _ => num
  | Line.startingProcessing num _ => num
  | Line.errorProcessing num => num
  | Line.completed num => num

/-- The lines that report a terminal outcome of a job in the terms of the specification:
`Failed` (browser error, start failure, nonzero exit, final size unreadable),
`SuspiciouslySmall` and `Succeeded`. -/
def Line.isOutcome : Line → Bool
  | Line.browserError _ => true
  | Line.failedToStart _ => true
  | Line.commandFailed _ => true
  | Line.errorFinalSize _ => true
  | Line.warningSmall _ => true
  | Line.successLarge _ => true
  | _ => false

/-- The terminal outcomes reported for a job. -/
def outcomes (r : JobReport) : List Line :=
  r.lines.filter Line.isOutcome

/-- An episode used in the examples. -/
def episode1 : Episode :=
  Episode.mk "1" "abc" (urlPrefix ++ "1")

/-- Another episode used in the examples. -/
def episode2 : Episode :=
  Episode.mk "2" "def" (urlPrefix ++ "2")

/-- External results of a job that goes well: both navigations, the start and the exit
succeed, one tick sees four bytes, and the final size is 10 MB. -/
def extGood : Ext :=
  Ext.mk true true true true [some 4] (some 10485760)

/-- External results of a job whose process exits with a nonzero status after it wrote a
file of 10 MB. -/
def extExitFailure : Ext :=
  Ext.mk true true true false [] (some 10485760)

/-- External results of a job whose address cannot be reached: both navigations fail,
while the process would start and exit with status zero and a file of 10 MB would be
found. -/
def extNavFailure : Ext :=
  Ext.mk false false true true [] (some 10485760)

/-- External results of a job where only the navigation of the first loop fails. -/
def extTabFailure : Ext :=
  Ext.mk false true true true [] (some 10485760)

/-- The result the final check reports for an `os.Stat` result. -/
def finalOutcome (num : String) : Option Int → Line
  | none => Line.errorFinalSize num
  | some size => if size < 10485760 then Line.warningSmall num else Line.successLarge num

theorem mainLoop_eq (episodes : List Episode) (i : Nat) :
    mainLoop episodes i =
      if i < episodes.length then
        (i, (episodes.drop i).take batchSize) :: mainLoop episodes (i + batchSize)
      else [] := by
  rw [mainLoop]
  split_ifs with h1 h2
  · have : (episodes.drop i).length ≤ episodes.length - i := by simp
    simp only [List.cons.injEq, Prod.mk.injEq, true_and, and_true]
    rw [List.take_of_length_le this, List.take_of_length_le]
    simp only [List.length_drop]; omega
  · have : i + batchSize - i = batchSize := by omega
    simp only [this]
  · rfl

theorem mainLoop_getElem? (episodes : List Episode) (k i : Nat) :
    (mainLoop episodes i)[k]? =
      if i + batchSize * k < episodes.length then
        some (i + batchSize * k, (episodes.drop (i + batchSize * k)).take batchSize)
      else none := by
  induction k generalizing i with
  | zero =>
    rw [mainLoop_eq]
    split_ifs with h1 h2 h2
    · simp
    · simp at h2; omega
    · simp at h2; omega
    · simp
  | succ k ih =>
    rw [mainLoop_eq]
    have e : i + batchSize + batchSize * k = i + batchSize * (k + 1) := by ring
    split_ifs with h1 h2 h2
    · simp only [List.getElem?_cons_succ, ih, e, if_pos h2]
    · simp only [List.getElem?_cons_succ, ih, e, if_neg h2]
    · simp only [batchSize] at *; omega
    · simp

theorem mainLoop_length (episodes : List Episode) (i : Nat) :
    (mainLoop episodes i).length = (episodes.length - i + 4) / 5 := by
  generalize hn : episodes.length - i = n
  induction n using Nat.strong_induction_on generalizing i with
  | _ n ih =>
    rw [mainLoop_eq]
    split_ifs with h
    · simp only [List.length_cons]
      rw [ih (episodes.length - (i + batchSize)) (by simp only [batchSize]; omega) _ rfl]
      simp only [batchSize]; omega
    · simp only [List.length_nil]; omega

theorem mainLoop_flatten (episodes : List Episode) (i : Nat) :
    ((mainLoop episodes i).map Prod.snd).flatten = episodes.drop i := by
  generalize hn : episodes.length - i = n
  induction n using Nat.strong_induction_on generalizing i with
  | _ n ih =>
    rw [mainLoop_eq]
    split_ifs with h
    · simp only [List.map_cons, List.flatten_cons]
      rw [ih (episodes.length - (i + batchSize)) (by simp only [batchSize]; omega) _ rfl]
      rw [← List.drop_drop, List.take_append_drop]
    · simp only [List.map_nil, List.flatten_nil]
      exact (List.drop_of_length_le (by omega)).symm

/-- C5: the batching loop of `main` is total, and the batches it passes to `processBatch`,
concatenated in the order of the calls, are the episode list itself; every batch is
non-empty and has at most five episodes, every batch but the last has exactly five, the
batch of index `k` is the five (or fewer) episodes from index `5 * k` on, and there are
`ceil (N / 5)` batches, none for the empty list. -/
theorem batches_partition (episodes : List Episode) :
    (batches episodes).flatten = episodes ∧
    (∀ b ∈ batches episodes, b ≠ [] ∧ b.length ≤ batchSize) ∧
    (∀ k b, (batches episodes)[k]? = some b → k + 1 < (batches episodes).length →
      b.length = batchSize) ∧
    (∀ k b, (batches episodes)[k]? = some b → b = (episodes.drop (5 * k)).take 5) ∧
    (batches episodes).length = (episodes.length + 4) / 5 ∧
    (episodes = [] → batches episodes = []) := by
  have hk : ∀ k b, (batches episodes)[k]? = some b →
      5 * k < episodes.length ∧ b = (episodes.drop (5 * k)).take 5 := by
    intro k b h
    simp only [batches, List.getElem?_map, mainLoop_getElem?, batchSize, Nat.zero_add] at h
    split_ifs at h with h1
    · simp only [Option.map_some', Option.some.injEq] at h
      exact ⟨h1, h.symm⟩
    · simp at h
  have hlen : (batches episodes).length = (episodes.length + 4) / 5 := by
    simp only [batches, List.length_map, mainLoop_length, Nat.sub_zero]
  refine ⟨?_, ?_, ?_, fun k b h => (hk k b h).2, hlen, ?_⟩
  · simpa [batches] using mainLoop_flatten episodes 0
  · intro b hb
    obtain ⟨k, hk1⟩ := List.getElem?_of_mem hb
    obtain ⟨h1, h2⟩ := hk k b hk1
    subst h2
    constructor
    · intro h0
      have := congrArg List.length h0
      simp only [List.length_take, List.length_drop, List.length_nil] at this
      omega
    · simp only [List.length_take, List.length_drop, batchSize]; omega
  · intro k b h hlt
    obtain ⟨h1, h2⟩ := hk k b h
    subst h2
    rw [hlen] at hlt
    simp only [List.length_take, List.length_drop, batchSize]
    omega
  · intro h
    subst h
    exact List.length_eq_zero.mp (by rw [hlen]; rfl)

/-! ## Reading the manifest -/

theorem roundFloat64_small (n : Nat) (h : n < 2 ^ 53) : roundFloat64 n = n := by
  unfold roundFloat64
  rw [if_pos h]

theorem roundFloat64_large (n : Nat) (h : 2 ^ 53 ≤ n) : 2 ^ 52 ≤ roundFloat64 n := by
  have hn : n ≠ 0 := by
    intro h0
    subst h0
    simp at h
  have hlog : 53 ≤ Nat.log2 n := (Nat.le_log2 hn).2 h
  have hpow : 2 ^ (Nat.log2 n - 52) * 2 ^ 52 ≤ n := by
    rw [← Nat.pow_add, Nat.sub_add_cancel (by omega)]
    exact Nat.log2_self_le hn
  have hpos : 0 < 2 ^ (Nat.log2 n - 52) := Nat.pow_pos (by decide)
  have hq : 2 ^ 52 ≤ n / 2 ^ (Nat.log2 n - 52) := by
    rw [Nat.le_div_iff_mul_le hpos, Nat.mul_comm]
    exact hpow
  have h1 : 2 ^ 52 ≤ n / 2 ^ (Nat.log2 n - 52) * 2 ^ (Nat.log2 n - 52) :=
    le_trans hq (Nat.le_mul_of_pos_right _ hpos)
  have h2 : 2 ^ 52 ≤ (n / 2 ^ (Nat.log2 n - 52) + 1) * 2 ^ (Nat.log2 n - 52) :=
    le_trans h1 (Nat.mul_le_mul_right _ (Nat.le_succ _))
  have hnot : ¬ n < 2 ^ 53 := by omega
  simp only [roundFloat64, hnot, if_false]
  split_ifs <;> assumption

theorem roundFloat64_lt (n : Nat) : roundFloat64 n < 10485760 ↔ n < 10485760 := by
  by_cases h : n < 2 ^ 53
  · rw [roundFloat64_small n h]
  · have h1 := roundFloat64_large n (by omega)
    have h2 : (2 : Nat) ^ 52 = 4503599627370496 := by norm_num
    have h3 : (2 : Nat) ^ 53 = 9007199254740992 := by norm_num
    constructor <;> intro _ <;> omega

/-- The test `sizeMB < 10` of line 238 holds exactly for sizes below `10 * 1024 * 1024`. -/
theorem sizeMB_lt_ten (size : Int) : sizeMB size < 10 ↔ size < 10485760 := by
  unfold sizeMB float64
  by_cases h : size < 0
  · simp only [h, if_true]
    have h0 : (0 : ℚ) ≤ ((roundFloat64 size.natAbs : Nat) : ℚ) := Nat.cast_nonneg _
    constructor
    · intro _; omega
    · intro _
      have : -((roundFloat64 size.natAbs : Nat) : ℚ) / 1024 / 1024 ≤ 0 := by
        rw [div_div]
        exact div_nonpos_of_nonpos_of_nonneg (by linarith) (by norm_num)
      linarith
  · simp only [h, if_false]
    have hr := roundFloat64_lt size.toNat
    have hc : ((roundFloat64 size.toNat : Nat) : ℚ) / 1024 / 1024 < 10
        ↔ roundFloat64 size.toNat < 10485760 := by
      rw [div_div, div_lt_iff₀ (by norm_num)]
      have : (10 : ℚ) * (1024 * 1024) = ((10485760 : Nat) : ℚ) := by norm_num
      rw [this, Nat.cast_lt]
    rw [hc, hr]
    omega

/-- Below `2 ^ 53` the conversion is exact: the value compared with 10 is the quotient
`size / 1024 / 1024` itself. -/
theorem sizeMB_exact (size : Int) (h0 : 0 ≤ size) (h : size < 2 ^ 53) :
    sizeMB size = (size : ℚ) / 1024 / 1024 := by
  unfold sizeMB float64
  have hneg : ¬ size < 0 := by omega
  have hlt : size.toNat < 2 ^ 53 := by
    have : (2 : Int) ^ 53 = 9007199254740992 := by norm_num
    have : (2 : Nat) ^ 53 = 9007199254740992 := by norm_num
    omega
  simp only [hneg, if_false, roundFloat64_small _ hlt]
  have : ((size.toNat : Nat) : ℚ) = (size : ℚ) := by
    have h1 : ((size.toNat : Nat) : Int) = size := Int.toNat_of_nonneg h0
    exact_mod_cast congrArg (fun z : Int => (z : ℚ)) h1
  rw [this]

theorem monitorLoop_ticks_append (num : String) (lastSize : Int) (ticks : List (Option Int))
    (rest : List Event) :
    monitorLoop num lastSize (ticks.map Event.tick ++ rest)
      = ((monitorLoop num lastSize (ticks.map Event.tick)).1
            ++ (monitorLoop num (lastSizeAfter lastSize ticks) rest).1,
          (monitorLoop num (lastSizeAfter lastSize ticks) rest).2) := by
  induction ticks generalizing lastSize with
  | nil => simp [monitorLoop, lastSizeAfter]
  | cons t ts ih =>
    cases t with
    | none => simpa [monitorLoop, lastSizeAfter] using ih lastSize
    | some c =>
      by_cases h : c = lastSize
      · subst h
        simpa [monitorLoop, lastSizeAfter] using ih c
      · simp [monitorLoop, lastSizeAfter, h, ih c]

theorem monitorLoop_ticks (num : String) (lastSize : Int) (ticks : List (Option Int)) :
    (monitorLoop num lastSize (ticks.map Event.tick)).1
      = (changes (lastSize :: sizesSeen ticks)).map (fun s => Line.downloading num (sizeMB s))
    := by
  induction ticks generalizing lastSize with
  | nil => simp [monitorLoop, sizesSeen, changes]
  | cons t ts ih =>
    cases t with
    | none => simpa [monitorLoop, sizesSeen] using ih lastSize
    | some c =>
      by_cases h : c = lastSize
      · subst h
        simpa [monitorLoop, sizesSeen, changes] using ih c
      · have := ih c
        simp only [sizesSeen] at this
        simp [monitorLoop, sizesSeen, changes, h, this]

theorem lastSizeAfter_eq (lastSize : Int) (ticks : List (Option Int)) :
    lastSizeAfter lastSize ticks = ((sizesSeen ticks).getLast?).getD lastSize := by
  induction ticks generalizing lastSize with
  | nil => simp [lastSizeAfter, sizesSeen]
  | cons t ts ih =>
    cases t with
    | none => simpa [lastSizeAfter, sizesSeen] using ih lastSize
    | some c =>
      have hc := ih c
      simp only [sizesSeen] at hc
      have hl : ∀ l : List Int, ((c :: l).getLast?).getD lastSize = (l.getLast?).getD c := by
        intro l
        simp [List.getLast?_cons]
      by_cases h : c = lastSize
      · subst h
        simp only [lastSizeAfter, sizesSeen, ne_eq, not_true_eq_false, if_false,
          List.filterMap_cons, id_eq, hl]
        exact hc
      · simp only [lastSizeAfter, sizesSeen, ne_eq, h, not_false_eq_true, if_true,
          List.filterMap_cons, id_eq, hl]
        exact hc

theorem changes_getLast (a : Int) (xs : List Int) :
    ((changes (a :: xs)).getLast?).getD a = (xs.getLast?).getD a := by
  induction xs generalizing a with
  | nil => simp [changes]
  | cons x t ih =>
    have hl : ∀ (d : Int) (l : List Int), ((x :: l).getLast?).getD d = (l.getLast?).getD x := by
      intro d l
      simp [List.getLast?_cons]
    by_cases h : x = a
    · subst h
      simp only [changes, ne_eq, not_true_eq_false, if_false, hl]
      exact ih x
    · simp only [changes, ne_eq, h, not_false_eq_true, if_true, hl]
      exact ih x

theorem lastSizeAfter_lastObserved (samples : List (Option Int)) :
    lastSizeAfter 0 samples = lastObserved samples := by
  rw [lastSizeAfter_eq, lastObserved, changes_getLast]

theorem finalCheck_some (num : String) (size : Int) :
    finalCheck num (some size)
      = [Line.finalSize num (sizeMB size),
          if size < 10485760 then Line.warningSmall num else Line.successLarge num] := by
  unfold finalCheck
  by_cases h : size < 10485760
  · simp [(sizeMB_lt_ten size).2 h, h]
  · simp [mt (sizeMB_lt_ten size).1 h, h]

theorem monitorFileSize_done (num : String) (ticks : List (Option Int)) (stat : Option Int)
    (post : List Event) :
    monitorFileSize num (ticks.map Event.tick ++ Event.done stat :: post)
      = (progressLines num ticks ++ finalCheck num stat, true) := by
  unfold monitorFileSize progressLines
  rw [monitorLoop_ticks_append]
  simp [monitorLoop, monitorFileSize]

theorem progressLines_eq (num : String) (samples : List (Option Int)) :
    progressLines num samples = observations num samples :=
  monitorLoop_ticks num 0 samples

theorem not_mem_progressLines (num : String) (samples : List (Option Int)) (l : Line)
    (h : ∀ mb, l ≠ Line.downloading num mb) : l ∉ progressLines num samples := by
  rw [progressLines_eq, observations]
  intro hm
  obtain ⟨s, _, hs⟩ := List.mem_map.mp hm
  exact h _ hs.symm

theorem lastSizeAfter_append (lastSize : Int) (xs ys : List (Option Int)) :
    lastSizeAfter lastSize (xs ++ ys) = lastSizeAfter (lastSizeAfter lastSize xs) ys := by
  induction xs generalizing lastSize with
  | nil => simp [lastSizeAfter]
  | cons t ts ih =>
    cases t with
    | none => simpa [lastSizeAfter] using ih lastSize
    | some c =>
      by_cases h : c = lastSize
      · subst h
        simpa [lastSizeAfter] using ih c
      · simpa [lastSizeAfter, h] using ih c

theorem progressLines_snoc (num : String) (samples : List (Option Int)) (s : Option Int) :
    progressLines num (samples ++ [s]) = progressLines num samples ++
      (match s with
        | some n =>
          if n ≠ lastObserved samples then [Line.downloading num (sizeMB n)] else []
        | none => []) := by
  unfold progressLines monitorFileSize
  rw [List.map_append, monitorLoop_ticks_append, lastSizeAfter_lastObserved]
  cases s with
  | none => simp [monitorLoop]
  | some n =>
    by_cases h : n = lastObserved samples
    · simp [monitorLoop, h]
    · simp [monitorLoop, h]

theorem lastObserved_snoc (samples : List (Option Int)) (s : Option Int) :
    lastObserved (samples ++ [s]) =
      (match s with
        | some n => if n ≠ lastObserved samples then n else lastObserved samples
        | none => lastObserved samples) := by
  rw [← lastSizeAfter_lastObserved, ← lastSizeAfter_lastObserved, lastSizeAfter_append]
  cases s with
  | none => simp [lastSizeAfter]
  | some n =>
    by_cases h : n = lastSizeAfter 0 samples
    · simp [lastSizeAfter, h]
    · simp [lastSizeAfter, h]

theorem lastObserved_snoc_some (samples : List (Option Int)) (n : Int) :
    lastObserved (samples ++ [some n]) = n := by
  rw [lastObserved_snoc]
  by_cases h : n = lastObserved samples
  · simp [h]
  · simp [h]

theorem progressLines_repeat (num : String) (samples : List (Option Int)) (n : Int) (k : Nat) :
    progressLines num (samples ++ List.replicate (k + 1) (some n))
      = progressLines num (samples ++ [some n]) := by
  induction k with
  | zero => rfl
  | succ k ih =>
    have e : samples ++ List.replicate (k + 1 + 1) (some n)
        = (samples ++ List.replicate k (some n) ++ [some n]) ++ [some n] := by
      rw [List.replicate_succ', List.replicate_succ']
      simp
    have e1 : samples ++ List.replicate k (some n) ++ [some n]
        = samples ++ List.replicate (k + 1) (some n) := by
      rw [List.replicate_succ']
      simp
    rw [e, progressLines_snoc, lastObserved_snoc_some, e1, ih]
    simp

theorem progressLines_failed (num : String) (samples : List (Option Int)) (k : Nat) :
    progressLines num (samples ++ List.replicate k none) = progressLines num samples := by
  induction k with
  | zero => simp
  | succ k ih =>
    have e : samples ++ List.replicate (k + 1) (none : Option Int)
        = (samples ++ List.replicate k none) ++ [none] := by
      rw [List.replicate_succ']
      simp
    rw [e, progressLines_snoc, ih]
    simp

/-- C1: when `done` is received and the final `os.Stat` gives the size `n`, the monitor
reports `SUCCESS: Large file confirmed` exactly when `n` is at least `10 * 1024 * 1024`
= 10485760, and the suspiciously-small warning exactly when `n` is below it, whatever the
ticks before and the events after; the size 10485760 itself gives the success line and
10485759 the warning.  The test of the code, `float64(n) / 1024 / 1024 < 10`, agrees with
the same test on the exact quotient. -/
theorem final_verdict_threshold (num : String) (ticks : List (Option Int)) (n : Int)
    (post : List Event) :
    (Line.successLarge num
        ∈ (monitorFileSize num (ticks.map Event.tick ++ Event.done (some n) :: post)).1
      ↔ 10485760 ≤ n) ∧
    (Line.warningSmall num
        ∈ (monitorFileSize num (ticks.map Event.tick ++ Event.done (some n) :: post)).1
      ↔ n < 10485760) ∧
    (monitorFileSize num (ticks.map Event.tick ++ Event.done (some 10485760) :: post)).1
      = progressLines num ticks ++ [Line.finalSize num 10, Line.successLarge num] ∧
    (monitorFileSize num (ticks.map Event.tick ++ Event.done (some 10485759) :: post)).1
      = progressLines num ticks
          ++ [Line.finalSize num (10485759 / 1048576), Line.warningSmall num] ∧
    (sizeMB n < 10 ↔ (n : ℚ) / 1024 / 1024 < 10) := by
  have hs : Line.successLarge num ∉ progressLines num ticks :=
    not_mem_progressLines num ticks _ (fun _ h => Line.noConfusion h)
  have hw : Line.warningSmall num ∉ progressLines num ticks :=
    not_mem_progressLines num ticks _ (fun _ h => Line.noConfusion h)
  have h10 : sizeMB 10485760 = 10 := by
    rw [sizeMB_exact _ (by norm_num) (by norm_num)]
    norm_num
  have h9 : sizeMB 10485759 = 10485759 / 1048576 := by
    rw [sizeMB_exact _ (by norm_num) (by norm_num)]
    norm_num
  refine ⟨?_, ?_, ?_, ?_, ?_⟩
  · rw [monitorFileSize_done, finalCheck_some]
    by_cases h : n < 10485760
    · simp [hs, h]
    · simp [hs, h]
      omega
  · rw [monitorFileSize_done, finalCheck_some]
    by_cases h : n < 10485760
    · simp [hw, h]
    · simp [hw, h]
  · rw [monitorFileSize_done, finalCheck_some, h10]
    simp
  · rw [monitorFileSize_done, finalCheck_some, h9]
    simp
  · rw [sizeMB_lt_ten, div_div, div_lt_iff₀ (by norm_num)]
    have : (10 : ℚ) * (1024 * 1024) = ((10485760 : Int) : ℚ) := by norm_num
    rw [this, Int.cast_lt]

/-- C9: when `done` is received, `monitorFileSize` makes its final check and returns: the
output is the progress lines of the ticks before, then, when the final `os.Stat` fails, the
error line alone, and otherwise the final size and exactly one of the two verdicts.  The
progress lines are none of these, and the events after `done` change nothing: no sample
is taken and nothing is reported after the final check. -/
theorem final_check_once (num : String) (ticks : List (Option Int)) (post : List Event) :
    monitorFileSize num (ticks.map Event.tick ++ Event.done none :: post)
      = (progressLines num ticks ++ [Line.errorFinalSize num], true) ∧
    (∀ n : Int, monitorFileSize num (ticks.map Event.tick ++ Event.done (some n) :: post)
      = (progressLines num ticks ++ [Line.finalSize num (sizeMB n),
          if n < 10485760 then Line.warningSmall num else Line.successLarge num], true)) ∧
    (∀ l ∈ progressLines num ticks, ∃ mb, l = Line.downloading num mb) ∧
    (∀ stat, monitorFileSize num (ticks.map Event.tick ++ Event.done stat :: post)
      = monitorFileSize num (ticks.map Event.tick ++ [Event.done stat])) ∧
    (∀ stat, Line.errorFinalSize num
        ∈ (monitorFileSize num (ticks.map Event.tick ++ Event.done stat :: post)).1
      ↔ stat = none) := by
  have he : Line.errorFinalSize num ∉ progressLines num ticks :=
    not_mem_progressLines num ticks _ (fun _ h => Line.noConfusion h)
  refine ⟨?_, ?_, ?_, ?_, ?_⟩
  · rw [monitorFileSize_done]
    rfl
  · intro n
    rw [monitorFileSize_done, finalCheck_some]
  · intro l hl
    rw [progressLines_eq, observations] at hl
    obtain ⟨s, _, hs⟩ := List.mem_map.mp hl
    exact ⟨_, hs.symm⟩
  · intro stat
    rw [monitorFileSize_done, monitorFileSize_done]
  · intro stat
    rw [monitorFileSize_done]
    cases stat with
    | none => simp [finalCheck]
    | some n =>
      rw [finalCheck_some]
      by_cases h : n < 10485760
      · simp [he, h]
      · simp [he, h]

/-- C10: at each periodic sample a progress line is printed exactly when `os.Stat`
succeeded and the size differs from the last observed size, which is zero before any
observation and changes only when a line is printed.  So the lines are one for each change
in the sequence of successful sizes with a zero in front, their number is the number of
those changes, a run of equal sizes gives the lines of its first sample only, and failed
samples give no line and leave the last observed size as it is. -/
theorem progress_observations (num : String) (samples : List (Option Int)) :
    progressLines num samples = observations num samples ∧
    (progressLines num samples).length = (changes (0 :: sizesSeen samples)).length ∧
    (∀ s, progressLines num (samples ++ [s]) = progressLines num samples ++
      (match s with
        | some n =>
          if n ≠ lastObserved samples then [Line.downloading num (sizeMB n)] else []
        | none => [])) ∧
    lastObserved [] = 0 ∧
    (∀ s, lastObserved (samples ++ [s]) =
      (match s with
        | some n => if n ≠ lastObserved samples then n else lastObserved samples
        | none => lastObserved samples)) ∧
    (∀ n k, progressLines num (samples ++ List.replicate (k + 1) (some n))
      = progressLines num (samples ++ [some n])) ∧
    (∀ k, progressLines num (samples ++ List.replicate k none) = progressLines num samples ∧
      lastObserved (samples ++ List.replicate k none) = lastObserved samples) := by
  refine ⟨progressLines_eq num samples, ?_, progressLines_snoc num samples, rfl,
    lastObserved_snoc samples, progressLines_repeat num samples, ?_⟩
  · rw [progressLines_eq, observations, List.length_map]
  · intro k
    refine ⟨progressLines_failed num samples k, ?_⟩
    induction k with
    | zero => simp
    | succ k ih =>
      have e : samples ++ List.replicate (k + 1) (none : Option Int)
          = (samples ++ List.replicate k none) ++ [none] := by
        rw [List.replicate_succ']
        simp
      rw [e, lastObserved_snoc, ih]

/-! ## Jobs and batches -/

theorem monitor_of_job (num : String) (x : Ext) :
    monitorFileSize num (x.ticks.map Event.tick ++ [Event.done x.final])
      = (progressLines num x.ticks ++ finalCheck num x.final, true) :=
  monitorFileSize_done num x.ticks x.final []

theorem downloadGoroutine_nav_failed (e : Episode) (x : Ext) (h : x.navOk = false) :
    downloadGoroutine e x = ([Line.openingPage e.Num, Line.browserError e.Num], none) := by
  simp [downloadGoroutine, h]

theorem downloadGoroutine_start_failed (e : Episode) (x : Ext) (h1 : x.navOk = true)
    (h2 : x.startOk = false) :
    downloadGoroutine e x
      = ([Line.openingPage e.Num, Line.startingDownload e.Num, Line.failedToStart e.Num],
          none) := by
  simp [downloadGoroutine, h1, h2]

theorem downloadGoroutine_started (e : Episode) (x : Ext) (h1 : x.navOk = true)
    (h2 : x.startOk = true) :
    downloadGoroutine e x
      = ([Line.openingPage e.Num, Line.startingDownload e.Num,
            if x.waitOk then Line.commandFinished e.Num else Line.commandFailed e.Num],
          some (progressLines e.Num x.ticks ++ finalCheck e.Num x.final, true)) := by
  simp [downloadGoroutine, h1, h2, monitor_of_job]

theorem lines_started (e : Episode) (x : Ext) (h1 : x.navOk = true) (h2 : x.startOk = true) :
    (runJob e x).lines
      = tabGoroutine e x ++
        [Line.openingPage e.Num, Line.startingDownload e.Num,
          if x.waitOk then Line.commandFinished e.Num else Line.commandFailed e.Num] ++
        (progressLines e.Num x.ticks ++ finalCheck e.Num x.final) := by
  simp [JobReport.lines, JobReport.monitorLines, runJob, downloadGoroutine_started e x h1 h2]

theorem finalCheck_cases (num : String) (stat : Option Int) :
    finalCheck num stat = [Line.errorFinalSize num] ∧ stat = none ∨
    (∃ n, stat = some n ∧ n < 10485760 ∧
      finalCheck num stat = [Line.finalSize num (sizeMB n), Line.warningSmall num]) ∨
    (∃ n, stat = some n ∧ 10485760 ≤ n ∧
      finalCheck num stat = [Line.finalSize num (sizeMB n), Line.successLarge num]) := by
  cases stat with
  | none => exact Or.inl ⟨rfl, rfl⟩
  | some n =>
    by_cases h : n < 10485760
    · exact Or.inr (Or.inl ⟨n, rfl, h, by rw [finalCheck_some, if_pos h]⟩)
    · exact Or.inr (Or.inr ⟨n, rfl, by omega, by rw [finalCheck_some, if_neg h]⟩)

theorem filter_progressLines (num : String) (samples : List (Option Int)) :
    (progressLines num samples).filter Line.isOutcome = [] := by
  rw [List.filter_eq_nil_iff]
  intro l hl
  rw [progressLines_eq, observations] at hl
  obtain ⟨s, _, hs⟩ := List.mem_map.mp hl
  subst hs
  simp [Line.isOutcome]

theorem runBatches_from (episodes : List Episode) (ext : Nat → Ext) (i : Nat) :
    ((mainLoop episodes i).map
        (fun c => processBatch c.2 (fun k => ext (c.1 + k)))).flatten
      = (episodes.drop i).mapIdx (fun k e => runJob e (ext (i + k))) := by
  generalize hn : episodes.length - i = n
  induction n using Nat.strong_induction_on generalizing i with
  | _ n ih =>
    rw [mainLoop_eq]
    split_ifs with h
    · simp only [List.map_cons, List.flatten_cons]
      rw [ih (episodes.length - (i + batchSize)) (by simp only [batchSize]; omega) _ rfl]
      conv_rhs => rw [← List.take_append_drop batchSize (episodes.drop i)]
      rw [List.mapIdx_append, List.drop_drop, processBatch]
      congr 1
      by_cases hlen : i + batchSize ≤ episodes.length
      · have : (List.take batchSize (List.drop i episodes)).length = batchSize := by
          simp only [List.length_take, List.length_drop]
          omega
        rw [this]
        congr 1
        funext k e
        congr 2
        omega
      · rw [List.drop_of_length_le (by omega)]
        simp
    · rw [List.drop_of_length_le (by omega)]
      simp

theorem runBatches_flatten (episodes : List Episode) (ext : Nat → Ext) :
    (runBatches episodes ext).flatten = episodes.mapIdx (fun j e => runJob e (ext j)) := by
  have h := runBatches_from episodes ext 0
  simpa [runBatches] using h

theorem sizeMB_ten : sizeMB 10485760 = 10 := by
  rw [sizeMB_exact _ (by norm_num) (by norm_num)]
  norm_num

theorem finalCheck_ten (num : String) :
    finalCheck num (some 10485760) = [Line.finalSize num 10, Line.successLarge num] := by
  rw [finalCheck_some, sizeMB_ten]
  simp

theorem progressLines_nil (num : String) : progressLines num [] = [] := rfl

theorem runJob_exit_failure :
    runJob episode1 extExitFailure
      = JobReport.mk
          [Line.navigating "1" (urlPrefix ++ "1"), Line.pageLoaded "1"]
          [Line.openingPage "1", Line.startingDownload "1", Line.commandFailed "1"]
          (some ([Line.finalSize "1" 10, Line.successLarge "1"], true)) := by
  rw [runJob, downloadGoroutine_started episode1 extExitFailure rfl rfl]
  simp [tabGoroutine, extExitFailure, episode1, progressLines_nil, finalCheck_ten]

theorem runJob_nav_failure :
    runJob episode1 extNavFailure
      = JobReport.mk
          [Line.navigating "1" (urlPrefix ++ "1"), Line.failedToNavigate "1"]
          [Line.openingPage "1", Line.browserError "1"]
          none := by
  rw [runJob, downloadGoroutine_nav_failed episode1 extNavFailure rfl]
  simp [tabGoroutine, extNavFailure, episode1]

theorem mem_tabGoroutine (e : Episode) (x : Ext) (l : Line) (h : l ∈ tabGoroutine e x) :
    l = Line.navigating e.Num e.URL ∨ l = Line.pageLoaded e.Num
      ∨ l = Line.failedToNavigate e.Num := by
  unfold tabGoroutine at h
  cases hx : x.tabNavOk <;> simp [hx] at h <;> tauto

/-- A line of the final check belongs to the lines of a job whose process was started
exactly when the final check printed it. -/
theorem mem_lines_final (e : Episode) (x : Ext) (h1 : x.navOk = true) (h2 : x.startOk = true)
    (l : Line) (hl : l = Line.successLarge e.Num ∨ l = Line.warningSmall e.Num
      ∨ l = Line.errorFinalSize e.Num) :
    l ∈ (runJob e x).lines ↔ l ∈ finalCheck e.Num x.final := by
  have ht : l ∉ tabGoroutine e x := by
    intro h
    rcases mem_tabGoroutine e x l h with h | h | h <;> rcases hl with hl | hl | hl <;>
      exact Line.noConfusion (h.symm.trans hl)
  have hp : l ∉ progressLines e.Num x.ticks := by
    apply not_mem_progressLines
    intro mb h
    rcases hl with hl | hl | hl <;> exact Line.noConfusion (h.symm.trans hl)
  have hw : l ∉ [Line.openingPage e.Num, Line.startingDownload e.Num,
      if x.waitOk then Line.commandFinished e.Num else Line.commandFailed e.Num] := by
    intro h
    cases hx : x.waitOk <;> simp [hx] at h <;>
      rcases h with h | h | h <;> rcases hl with hl | hl | hl <;>
      exact Line.noConfusion (h.symm.trans hl)
  rw [lines_started e x h1 h2]
  simp only [List.mem_append, ht, hw, hp, false_or]

theorem mem_finalCheck (num : String) (stat : Option Int) :
    (Line.successLarge num ∈ finalCheck num stat ↔ ∃ n, stat = some n ∧ 10485760 ≤ n) ∧
    (Line.warningSmall num ∈ finalCheck num stat ↔ ∃ n, stat = some n ∧ n < 10485760) ∧
    (Line.errorFinalSize num ∈ finalCheck num stat ↔ stat = none) := by
  cases stat with
  | none => simp [finalCheck]
  | some n =>
    rw [finalCheck_some]
    by_cases h : n < 10485760
    · simp [h]
    · simp [h]
      omega

/-- C2 fails as stated: a job whose process exits with a nonzero status after writing
10485760 bytes is logged as failed by its goroutine, and its monitor still reports
`SUCCESS: Large file confirmed`. -/
theorem exit_failure_counterexample :
    extExitFailure.navOk = true ∧ extExitFailure.startOk = true ∧
    extExitFailure.waitOk = false ∧
    Line.commandFailed episode1.Num ∈ (runJob episode1 extExitFailure).lines ∧
    Line.successLarge episode1.Num ∈ (runJob episode1 extExitFailure).lines := by
  refine ⟨rfl, rfl, rfl, ?_, ?_⟩ <;> rw [runJob_exit_failure] <;>
    simp [JobReport.lines, JobReport.monitorLines, episode1]

/-- C2 as amended: when the process of a job is started and exits with a nonzero status,
the goroutine logs `Download command failed` and not `Download command finished`, and the
monitor's final check runs all the same; its verdict depends on the file alone: the success
line is reported exactly when the final `os.Stat` gives a size of at least 10485760, the
warning exactly when it gives a smaller size, and the final-size error exactly when it
fails. -/
theorem exit_failure_report (e : Episode) (x : Ext) (hnav : x.navOk = true)
    (hstart : x.startOk = true) (hwait : x.waitOk = false) :
    (runJob e x).worker
      = [Line.openingPage e.Num, Line.startingDownload e.Num, Line.commandFailed e.Num] ∧
    (runJob e x).monitor
      = some (progressLines e.Num x.ticks ++ finalCheck e.Num x.final, true) ∧
    (Line.successLarge e.Num ∈ (runJob e x).lines ↔ ∃ n, x.final = some n ∧ 10485760 ≤ n) ∧
    (Line.warningSmall e.Num ∈ (runJob e x).lines ↔ ∃ n, x.final = some n ∧ n < 10485760) ∧
    (Line.errorFinalSize e.Num ∈ (runJob e x).lines ↔ x.final = none) := by
  have hd := downloadGoroutine_started e x hnav hstart
  rw [hwait] at hd
  have hm := mem_finalCheck e.Num x.final
  refine ⟨by simp [runJob, hd], by simp [runJob, hd], ?_, ?_, ?_⟩
  · rw [mem_lines_final e x hnav hstart _ (Or.inl rfl)]
    exact hm.1
  · rw [mem_lines_final e x hnav hstart _ (Or.inr (Or.inl rfl))]
    exact hm.2.1
  · rw [mem_lines_final e x hnav hstart _ (Or.inr (Or.inr rfl))]
    exact hm.2.2

/-- The amended C2 at a job whose process exits nonzero and leaves a file of 10 MB. -/
theorem exit_failure_report_witness :
    (runJob episode1 extExitFailure).worker
      = [Line.openingPage "1", Line.startingDownload "1", Line.commandFailed "1"] ∧
    (Line.successLarge "1" ∈ (runJob episode1 extExitFailure).lines
      ↔ ∃ n, extExitFailure.final = some n ∧ 10485760 ≤ n) :=
  ⟨(exit_failure_report episode1 extExitFailure rfl rfl rfl).1,
    (exit_failure_report episode1 extExitFailure rfl rfl rfl).2.2.1⟩

/-- C3 fails as stated: for a job whose address cannot be reached the download goroutine
logs the browser error and returns; no download is started and no verdict is reported,
although the process would have exited with status zero and left a file of 10 MB. -/
theorem navigation_failure_counterexample :
    extNavFailure.navOk = false ∧ extNavFailure.startOk = true ∧
    extNavFailure.waitOk = true ∧ extNavFailure.final = some 10485760 ∧
    runJob episode1 extNavFailure
      = JobReport.mk
          [Line.navigating "1" (urlPrefix ++ "1"), Line.failedToNavigate "1"]
          [Line.openingPage "1", Line.browserError "1"]
          none ∧
    Line.startingDownload episode1.Num ∉ (runJob episode1 extNavFailure).lines ∧
    Line.successLarge episode1.Num ∉ (runJob episode1 extNavFailure).lines := by
  refine ⟨rfl, rfl, rfl, rfl, runJob_nav_failure, ?_, ?_⟩ <;> rw [runJob_nav_failure] <;>
    simp [JobReport.lines, JobReport.monitorLines, episode1]

/-- C3 as amended: a failure of the navigation of the first loop is only logged: the
download goroutine does not depend on it, and when the navigation of the download
goroutine, the start and the exit succeed and the final size is at least 10485760 the job
is reported `SUCCESS`.  When the navigation of the download goroutine itself fails, the
goroutine logs the browser error and returns: no download is started, no monitor runs and
no verdict is reported. -/
theorem navigation_failure_report (e : Episode) (x : Ext) :
    (∀ b, downloadGoroutine e (Ext.mk b x.navOk x.startOk x.waitOk x.ticks x.final)
      = downloadGoroutine e x) ∧
    (x.tabNavOk = false → Line.failedToNavigate e.Num ∈ (runJob e x).tab) ∧
    (x.navOk = true → Line.startingDownload e.Num ∈ (runJob e x).worker) ∧
    (x.navOk = true → x.startOk = true → x.waitOk = true →
      ∀ n, x.final = some n → 10485760 ≤ n →
        Line.commandFinished e.Num ∈ (runJob e x).worker ∧
        Line.successLarge e.Num ∈ (runJob e x).lines) ∧
    (x.navOk = false →
      (runJob e x).worker = [Line.openingPage e.Num, Line.browserError e.Num] ∧
      (runJob e x).monitor = none ∧
      ∀ l ∈ (runJob e x).lines, l ≠ Line.startingDownload e.Num ∧
        l ≠ Line.successLarge e.Num ∧ l ≠ Line.warningSmall e.Num ∧
        l ≠ Line.errorFinalSize e.Num) := by
  refine ⟨fun b => rfl, ?_, ?_, ?_, ?_⟩
  · intro h
    simp [runJob, tabGoroutine, h]
  · intro h
    cases hs : x.startOk
    · simp [runJob, downloadGoroutine_start_failed e x h hs]
    · simp [runJob, downloadGoroutine_started e x h hs]
  · intro h1 h2 h3 n hn hle
    constructor
    · simp [runJob, downloadGoroutine_started e x h1 h2, h3]
    · rw [mem_lines_final e x h1 h2 _ (Or.inl rfl)]
      exact (mem_finalCheck e.Num x.final).1.2 ⟨n, hn, hle⟩
  · intro h
    have hd := downloadGoroutine_nav_failed e x h
    refine ⟨by simp [runJob, hd], by simp [runJob, hd], ?_⟩
    intro l hl
    simp only [JobReport.lines, JobReport.monitorLines, runJob, hd, List.mem_append,
      List.mem_cons, List.mem_singleton, List.not_mem_nil, or_false] at hl
    rcases hl with hl | hl | hl
    · rcases mem_tabGoroutine e x l hl with h | h | h <;> subst h <;> simp
    · subst hl; simp
    · subst hl; simp

/-- The amended C3 at two jobs: one where only the navigation of the first loop fails,
which is reported `SUCCESS`, and one whose address cannot be reached, which ends with the
browser error. -/
theorem navigation_failure_report_witness :
    (Line.commandFinished episode1.Num ∈ (runJob episode1 extTabFailure).worker ∧
      Line.successLarge episode1.Num ∈ (runJob episode1 extTabFailure).lines) ∧
    (runJob episode1 extNavFailure).worker
      = [Line.openingPage episode1.Num, Line.browserError episode1.Num] :=
  ⟨(navigation_failure_report episode1 extTabFailure).2.2.2.1 rfl rfl rfl 10485760 rfl
      (by decide),
    ((navigation_failure_report episode1 extNavFailure).2.2.2.2 rfl).1⟩

theorem filter_finalCheck (num : String) (stat : Option Int) :
    (finalCheck num stat).filter Line.isOutcome = [finalOutcome num stat] := by
  cases stat with
  | none => simp [finalCheck, finalOutcome, Line.isOutcome]
  | some n =>
    rw [finalCheck_some]
    by_cases h : n < 10485760
    · simp [finalOutcome, Line.isOutcome, h]
    · simp [finalOutcome, Line.isOutcome, h]

theorem filter_tabGoroutine (e : Episode) (x : Ext) :
    (tabGoroutine e x).filter Line.isOutcome = [] := by
  cases h : x.tabNavOk <;> simp [tabGoroutine, h, Line.isOutcome]

theorem outcomes_runJob (e : Episode) (x : Ext) :
    outcomes (runJob e x) =
      if x.navOk = false then [Line.browserError e.Num]
      else if x.startOk = false then [Line.failedToStart e.Num]
      else if x.waitOk = false then [Line.commandFailed e.Num, finalOutcome e.Num x.final]
      else [finalOutcome e.Num x.final] := by
  cases h1 : x.navOk
  · simp [outcomes, JobReport.lines, JobReport.monitorLines, runJob,
      downloadGoroutine_nav_failed e x h1, filter_tabGoroutine, Line.isOutcome]
  · cases h2 : x.startOk
    · simp [outcomes, JobReport.lines, JobReport.monitorLines, runJob,
        downloadGoroutine_start_failed e x h1 h2, filter_tabGoroutine, Line.isOutcome]
    · cases h3 : x.waitOk <;>
        simp [outcomes, lines_started e x h1 h2, h3, filter_tabGoroutine,
          filter_progressLines, filter_finalCheck, Line.isOutcome]

theorem num_of_lines (e : Episode) (x : Ext) (l : Line) (h : l ∈ (runJob e x).lines) :
    l.num = e.Num := by
  have hfin : ∀ l ∈ finalCheck e.Num x.final, l.num = e.Num := by
    intro l hl
    rcases finalCheck_cases e.Num x.final with ⟨hf, _⟩ | ⟨n, _, _, hf⟩ | ⟨n, _, _, hf⟩
    · rw [hf, List.mem_singleton] at hl
      subst hl
      rfl
    · rw [hf] at hl
      simp only [List.mem_cons, List.mem_singleton, List.not_mem_nil, or_false] at hl
      rcases hl with hl | hl <;> subst hl <;> rfl
    · rw [hf] at hl
      simp only [List.mem_cons, List.mem_singleton, List.not_mem_nil, or_false] at hl
      rcases hl with hl | hl <;> subst hl <;> rfl
  have hprog : ∀ l ∈ progressLines e.Num x.ticks, l.num = e.Num := by
    intro l hl
    rw [progressLines_eq, observations] at hl
    obtain ⟨s, _, hs⟩ := List.mem_map.mp hl
    subst hs
    rfl
  have htab : ∀ l ∈ tabGoroutine e x, l.num = e.Num := by
    intro l hl
    rcases mem_tabGoroutine e x l hl with h | h | h <;> subst h <;> rfl
  cases h1 : x.navOk
  · simp only [JobReport.lines, JobReport.monitorLines, runJob,
      downloadGoroutine_nav_failed e x h1, List.mem_append, List.mem_cons,
      List.mem_singleton, List.not_mem_nil, or_false] at h
    rcases h with h | h | h
    · exact htab l h
    · subst h; rfl
    · subst h; rfl
  · cases h2 : x.startOk
    · simp only [JobReport.lines, JobReport.monitorLines, runJob,
        downloadGoroutine_start_failed e x h1 h2, List.mem_append, List.mem_cons,
        List.mem_singleton, List.not_mem_nil, or_false] at h
      rcases h with h | h | h | h
      · exact htab l h
      · subst h; rfl
      · subst h; rfl
      · subst h; rfl
    · rw [lines_started e x h1 h2] at h
      simp only [List.mem_append, List.mem_cons, List.mem_singleton, List.not_mem_nil,
        or_false] at h
      rcases h with (h | h | h | h) | h | h
      · exact htab l h
      · subst h; rfl
      · subst h; rfl
      · subst h
        cases x.waitOk <;> rfl
      · exact hprog l h
      · exact hfin l h

/-- C4 fails as stated: in a run of one job whose process exits with a nonzero status
after writing 10485760 bytes, the job is reported twice, as failed by its goroutine and as a
success by its monitor. -/
theorem two_outcomes_counterexample :
    (runBatches [episode1] (fun _ => extExitFailure)).flatten
      = [runJob episode1 extExitFailure] ∧
    outcomes (runJob episode1 extExitFailure)
      = [Line.commandFailed "1", Line.successLarge "1"] ∧
    (outcomes (runJob episode1 extExitFailure)).length ≠ 1 := by
  have h : outcomes (runJob episode1 extExitFailure)
      = [Line.commandFailed "1", Line.successLarge "1"] := by
    rw [outcomes_runJob]
    simp [extExitFailure, episode1, finalOutcome]
  refine ⟨?_, h, ?_⟩
  · rw [runBatches_flatten]
    rfl
  · rw [h]
    decide

/-- C4 as amended: a run of the batch loop gives exactly one report for each episode, in
the order of the list, whatever the external results are; every line of a report carries
the number of its episode, and every monitor that was started has returned.  A report
holds exactly one terminal outcome (the browser error, the start failure, or the result of
the final check), except for a job whose process was started and exited with a nonzero
status: that one holds two, the failed command and the result of the final check. -/
theorem one_report_per_job (episodes : List Episode) (ext : Nat → Ext) :
    (runBatches episodes ext).flatten = episodes.mapIdx (fun j e => runJob e (ext j)) ∧
    (runBatches episodes ext).flatten.length = episodes.length ∧
    (∀ (e : Episode) (x : Ext), ∀ l ∈ (runJob e x).lines, l.num = e.Num) ∧
    (∀ (e : Episode) (x : Ext), outcomes (runJob e x) =
      if x.navOk = false then [Line.browserError e.Num]
      else if x.startOk = false then [Line.failedToStart e.Num]
      else if x.waitOk = false then [Line.commandFailed e.Num, finalOutcome e.Num x.final]
      else [finalOutcome e.Num x.final]) ∧
    (∀ (e : Episode) (x : Ext), (outcomes (runJob e x)).length =
      if x.navOk = true ∧ x.startOk = true ∧ x.waitOk = false then 2 else 1) ∧
    (∀ (e : Episode) (x : Ext) (m : List Line × Bool),
      (runJob e x).monitor = some m → m.2 = true) := by
  refine ⟨runBatches_flatten episodes ext, ?_, num_of_lines, outcomes_runJob, ?_, ?_⟩
  · rw [runBatches_flatten, List.length_mapIdx]
  · intro e x
    rw [outcomes_runJob]
    cases x.navOk <;> cases x.startOk <;> cases x.waitOk <;> simp
  · intro e x m hm
    cases h1 : x.navOk
    · simp [runJob, downloadGoroutine_nav_failed e x h1] at hm
    · cases h2 : x.startOk
      · simp [runJob, downloadGoroutine_start_failed e x h1 h2] at hm
      · simp [runJob, downloadGoroutine_started e x h1 h2] at hm
        rw [← hm]

/-- The amended C4 at a run of two jobs: the first is reported as a success only, the
second as a failed command and a success. -/
theorem one_report_per_job_witness :
    (runBatches [episode1, episode2]
        (fun j => if j = 0 then extGood else extExitFailure)).flatten
      = [runJob episode1 extGood, runJob episode2 extExitFailure] ∧
    outcomes (runJob episode1 extGood) = [Line.successLarge "1"] ∧
    outcomes (runJob episode2 extExitFailure)
      = [Line.commandFailed "2", Line.successLarge "2"] :=
  ⟨(one_report_per_job [episode1, episode2]
      (fun j => if j = 0 then extGood else extExitFailure)).1,
    (one_report_per_job [] (fun _ => extGood)).2.2.2.1 episode1 extGood,
    (one_report_per_job [] (fun _ => extGood)).2.2.2.1 episode2 extExitFailure⟩

end Ripper
